import Mathlib

/-!
Verification of the connect-starter-project flow (`src/index.ts`).

The script builds fee requests, merges fee responses into orders, signs and
submits them through `Promise.all`, fetches the ZRX/WETH order book, sorts the
bids in place by `BigNumber` rate comparison, and fills up to a target amount
via the 0x.js `fillOrdersUpToAsync` helper.

Amounts are exact nonnegative integers in base units, embedded as `Nat`.
`bignumber.js` division of two integers rounds the exact quotient to 20
decimal places (the library default `DECIMAL_PLACES = 20`) with half-up
rounding (`ROUNDING_MODE = 4`); we embed the rounded quotient as the natural
number `round(a / b * 10^20)`.  The embedding assumes divisors are positive
(division by zero yields Infinity/NaN rates in JavaScript and lies outside
the model).
-/

namespace Connect

/-- Scale factor for `bignumber.js` division: results carry 20 decimal
places (library default `DECIMAL_PLACES = 20`). -/
def E20 : Nat := 10 ^ 20

/-- `divRound20 a b` is `BigNumber(a).div(BigNumber(b))` for integers
`a, b` with `b > 0`, scaled by `10^20`: the exact quotient rounded half-up
(default `ROUNDING_MODE = 4`) to 20 decimal places. -/
def divRound20 (a b : Nat) : Nat := (2 * a * E20 + b) / (2 * b)

/-- The `FeesRequest` built at `src/index.ts:73-83`: the economic fields of
an order, sent to the relayer to obtain a fee quote. -/
structure FeesRequest where
  exchangeContractAddress : Nat
  maker : Nat
  taker : Nat
  makerTokenAddress : Nat
  takerTokenAddress : Nat
  makerTokenAmount : Nat
  takerTokenAmount : Nat
  expirationUnixTimestampSec : Nat
  salt : Nat
deriving DecidableEq

/-- The relayer's `FeesResponse`: fee amounts and the fee recipient
(see `@0xproject/connect`). -/
structure FeesResponse where
  feeRecipient : Nat
  makerFee : Nat
  takerFee : Nat
deriving DecidableEq

deriving instance DecidableEq for Except

/-- The 0x v1 `Order` type: the fee-request fields plus the fee quote. -/
structure Order where
  exchangeContractAddress : Nat
  maker : Nat
  taker : Nat
  makerTokenAddress : Nat
  takerTokenAddress : Nat
  makerTokenAmount : Nat
  takerTokenAmount : Nat
  makerFee : Nat
  takerFee : Nat
  feeRecipient : Nat
  expirationUnixTimestampSec : Nat
  salt : Nat
deriving DecidableEq

/-- An ECDSA signature triple. -/
structure EcSignature where
  v : Nat
  r : Nat
  s : Nat
deriving DecidableEq

/-- A `SignedOrder`: the order plus its signature, formed by the spread
`{ ...order, ecSignature }` at `src/index.ts:101-104`. -/
structure SignedOrder extends Order where
  ecSignature : EcSignature
deriving DecidableEq

/-- The spread `{ ...feesRequest, ...feesResponse }` at `src/index.ts:89-92`:
the key sets of the two records are disjoint, so the merged order carries the
request's economic fields and the response's fee fields. -/
def mkOrder (req : FeesRequest) (resp : FeesResponse) : Order where
  exchangeContractAddress := req.exchangeContractAddress
  maker := req.maker
  taker := req.taker
  makerTokenAddress := req.makerTokenAddress
  takerTokenAddress := req.takerTokenAddress
  makerTokenAmount := req.makerTokenAmount
  takerTokenAmount := req.takerTokenAmount
  makerFee := resp.makerFee
  takerFee := resp.takerFee
  feeRecipient := resp.feeRecipient
  expirationUnixTimestampSec := req.expirationUnixTimestampSec
  salt := req.salt

/-- The effective rate `makerTokenAmount / takerTokenAmount` of an order as
computed at `src/index.ts:122-123` and `129`: `BigNumber` division, i.e. the
exact quotient rounded to 20 decimal places (scaled by `10^20`). -/
def rate20 (o : SignedOrder) : Nat := divRound20 o.makerTokenAmount o.takerTokenAmount

/-- The sort comparator at `src/index.ts:121-125`: it returns
`orderRateB.comparedTo(orderRateA)`, i.e. `-1`, `0`, or `1` as the (rounded)
rate of `b` is below, equal to, or above the (rounded) rate of `a`. -/
def compareBids (a b : SignedOrder) : Int :=
  if rate20 b < rate20 a then -1
  else if rate20 b = rate20 a then 0
  else 1

/-- `bidLe a b` holds when the comparator allows `a` to precede `b`
(`compareBids a b ≤ 0`); `Array.prototype.sort` produces the unique stable
order that is pairwise consistent with this relation. -/
def bidLe (a b : SignedOrder) : Prop := compareBids a b ≤ 0

instance : DecidableRel bidLe :=
  fun a b => inferInstanceAs (Decidable (compareBids a b ≤ 0))

theorem bidLe_iff (a b : SignedOrder) : bidLe a b ↔ rate20 b ≤ rate20 a := by
  unfold bidLe compareBids
  split_ifs with h1 h2 <;> simp <;> omega

instance : IsTotal SignedOrder bidLe :=
  ⟨fun a b => by
    rw [bidLe_iff, bidLe_iff]
    omega⟩

instance : IsTrans SignedOrder bidLe :=
  ⟨fun a b c hab hbc => by
    rw [bidLe_iff] at hab hbc ⊢
    omega⟩

/-- `orderbookResponse.bids.sort(comparator)` at `src/index.ts:121-125`.
`Array.prototype.sort` (stable per the ECMAScript specification) with a
comparator that is a total preorder produces the unique stable order; we
embed it as Mathlib's stable `insertionSort` over `bidLe`. -/
def rank (l : List SignedOrder) : List SignedOrder := List.insertionSort bidLe l

/-- An order-book bid with the given maker/taker amounts and all other
fields zero (test fixture). -/
def mkBid (m t : Nat) : SignedOrder where
  exchangeContractAddress := 0
  maker := 0
  taker := 0
  makerTokenAddress := 0
  takerTokenAddress := 0
  makerTokenAmount := m
  takerTokenAmount := t
  makerFee := 0
  takerFee := 0
  feeRecipient := 0
  expirationUnixTimestampSec := 0
  salt := 0
  ecSignature := ⟨0, 0, 0⟩

/-- The relayer's order-book response (`src/index.ts:117`). -/
structure OrderbookResponse where
  bids : List SignedOrder
  asks : List SignedOrder
deriving DecidableEq

/-- Lines `src/index.ts:121-125`: `Array.prototype.sort` sorts the receiver
in place and returns it, so `bestOrders` aliases `orderbookResponse.bids`.
Embedded by state passing: the result is the updated response (its `bids`
field now holds the ranked sequence) together with the `bestOrders` value,
which is that same sequence. -/
def getBestOrders (resp : OrderbookResponse) : OrderbookResponse × List SignedOrder :=
  let sorted := rank resp.bids
  ({ resp with bids := sorted }, sorted)

/-! ### The greedy fill

`zeroEx.exchange.fillOrdersUpToAsync(bestOrders, zrxAmount, true,
zrxOwnerAddress)` at `src/index.ts:142` delegates the greedy fill-up-to
algorithm to the 0x.js dependency and the Exchange contract; that code is
not part of this repository, so the fill planner is modelled from the
specification. -/

/-- Failure kinds of the fill planner (spec §7). -/
inductive FillError where
  | InvalidTarget
  | InsufficientLiquidity
deriving DecidableEq

/-- One element of a `RankedFillPlan`: an entry together with the taker-side
quantity allocated from it (spec §3). -/
structure FillAlloc where
  entry : SignedOrder
  allocatedTakerAmount : Nat
deriving DecidableEq

/-- Modelled from the spec: the greedy walk of `planFill` (§4.4) — the
algorithm of `fillOrdersUpToAsync` lives in the 0x.js dependency, not in
this repository.  Walks the ranked sequence accumulating allocated
taker-side quantity until the remaining target is met; the entry that would
cross the threshold is allocated exactly the remainder when
`allowPartialFill` is true and its full amount otherwise; exhausting the
sequence first is `InsufficientLiquidity`. -/
def planFillGo (allowPartialFill : Bool) :
    List SignedOrder → Nat → Except FillError (List FillAlloc)
  | [], r => if r = 0 then .ok [] else .error .InsufficientLiquidity
  | e :: rest, r =>
    if r = 0 then .ok []
    else if e.takerTokenAmount ≤ r then
      match planFillGo allowPartialFill rest (r - e.takerTokenAmount) with
      | .ok res => .ok (⟨e, e.takerTokenAmount⟩ :: res)
      | .error err => .error err
    else if allowPartialFill then .ok [⟨e, r⟩]
    else .ok [⟨e, e.takerTokenAmount⟩]

/-- Modelled from the spec: `planFill(rankedEntries, targetTakerQuantity,
allowPartial)` (§4.4).  A non-positive target fails with `InvalidTarget`;
otherwise the greedy walk runs on the ranked sequence. -/
def planFill (entries : List SignedOrder) (target : Int) (allowPartialFill : Bool) :
    Except FillError (List FillAlloc) :=
  if target ≤ 0 then .error .InvalidTarget
  else planFillGo allowPartialFill entries target.toNat

/-- Total taker-side quantity allocated by a fill plan. -/
def sumAlloc (l : List FillAlloc) : Nat := (l.map (·.allocatedTakerAmount)).sum

/-- Total taker-side quantity available in a sequence of entries. -/
def totalAvail (l : List SignedOrder) : Nat := (l.map (·.takerTokenAmount)).sum

theorem planFillGo_true_sum :
    ∀ (l : List SignedOrder) (r : Nat) (res : List FillAlloc),
      planFillGo true l r = .ok res → sumAlloc res = r := by
  intro l
  induction l with
  | nil =>
    intro r res h
    unfold planFillGo at h
    split at h
    · cases h
      simp [sumAlloc]
      omega
    · cases h
  | cons e rest ih =>
    intro r res h
    unfold planFillGo at h
    split at h
    · cases h
      simp [sumAlloc]
      omega
    · split at h
      · rename_i hr ht
        cases hrec : planFillGo true rest (r - e.takerTokenAmount) with
        | ok res' =>
          rw [hrec] at h
          cases h
          have := ih (r - e.takerTokenAmount) res' hrec
          simp [sumAlloc] at this ⊢
          omega
        | error err =>
          rw [hrec] at h
          cases h
      · split at h
        · cases h
          simp [sumAlloc]
        · rename_i hb
          exact absurd rfl hb

theorem planFillGo_false_sum :
    ∀ (l : List SignedOrder) (r : Nat) (res : List FillAlloc),
      planFillGo false l r = .ok res → r ≤ sumAlloc res := by
  intro l
  induction l with
  | nil =>
    intro r res h
    unfold planFillGo at h
    split at h
    · cases h
      simp [sumAlloc]
      omega
    · cases h
  | cons e rest ih =>
    intro r res h
    unfold planFillGo at h
    split at h
    · cases h
      simp [sumAlloc]
      omega
    · split at h
      · rename_i hr ht
        cases hrec : planFillGo false rest (r - e.takerTokenAmount) with
        | ok res' =>
          rw [hrec] at h
          cases h
          have := ih (r - e.takerTokenAmount) res' hrec
          simp [sumAlloc] at this ⊢
          omega
        | error err =>
          rw [hrec] at h
          cases h
      · split at h
        · rename_i hb
          exact absurd hb (by simp)
        · cases h
          rename_i hr ht _
          simp [sumAlloc]
          omega

theorem planFillGo_insufficient :
    ∀ (ap : Bool) (l : List SignedOrder) (r : Nat),
      0 < r → totalAvail l < r → planFillGo ap l r = .error .InsufficientLiquidity := by
  intro ap l
  induction l with
  | nil =>
    intro r hr _
    unfold planFillGo
    split
    · omega
    · rfl
  | cons e rest ih =>
    intro r hr hav
    unfold planFillGo
    simp [totalAvail] at hav
    split
    · omega
    · split
      · rename_i hr0 ht
        rw [ih (r - e.takerTokenAmount) (by omega) (by simp [totalAvail]; omega)]
      · omega

/-! ### Order creation and submission (`src/index.ts:66-108`) -/

/-- Failure kinds of one order-creation task: the relayer fee request, the
signing step, or the submission may fail. -/
inductive OrderTaskError where
  | FeeRequestFailure
  | SigningFailure
  | SubmissionFailure
deriving DecidableEq

/-- The environment of the script: the timestamp read by `Date.now()`, the
contract addresses fetched at `src/index.ts:32-34`, the salt generator, and
the external collaborators (relayer fee endpoint, order hashing, signer,
relayer submission endpoint), each of which may fail. -/
structure Env where
  nowMs : Nat
  wethAddress : Nat
  zrxAddress : Nat
  exchangeAddress : Nat
  saltOf : Nat → Nat
  getFees : FeesRequest → Except OrderTaskError FeesResponse
  getOrderHashHex : Order → Nat
  signOrderHash : Nat → Nat → Except OrderTaskError EcSignature
  submitOrder : SignedOrder → Except OrderTaskError Unit

/-- The `FeesRequest` literal at `src/index.ts:73-83` for the task of the
given address and index: the exchange rate is `(index + 1) * 10`, the maker
amount is 5 WETH in base units, the taker amount is the maker amount times
the rate, and the expiration field receives `Date.now() + 3600000` — a
milliseconds value — into the seconds-denominated
`expirationUnixTimestampSec`. -/
def mkFeesRequest (env : Env) (address idx : Nat) : FeesRequest :=
  let exchangeRate := (idx + 1) * 10
  let makerTokenAmount := 5 * 10 ^ 18
  { exchangeContractAddress := env.exchangeAddress
    maker := address
    taker := 0
    makerTokenAddress := env.wethAddress
    takerTokenAddress := env.zrxAddress
    makerTokenAmount := makerTokenAmount
    takerTokenAmount := makerTokenAmount * exchangeRate
    expirationUnixTimestampSec := env.nowMs + 3600000
    salt := env.saltOf idx }

/-- One order-creation task (`src/index.ts:66-107`): build the fees request,
ask the relayer for a quote, merge it into the order, hash, sign, append the
signature, and submit.  The task's outcome depends only on its own address
and index (and the shared immutable environment). -/
def createAndSubmitOrder (env : Env) (address idx : Nat) :
    Except OrderTaskError SignedOrder := do
  let req := mkFeesRequest env address idx
  let resp ← env.getFees req
  let order := mkOrder req resp
  let orderHash := env.getOrderHashHex order
  let ecSignature ← env.signOrderHash orderHash address
  let signedOrder : SignedOrder := { order with ecSignature := ecSignature }
  let _ ← env.submitOrder signedOrder
  pure signedOrder

/-- The fan-out `wethOwnerAddresses.map(async (address, index) => ...)` at
`src/index.ts:66`: JavaScript promises are eager, so every task runs to its
own settled outcome independently of its siblings; the index is threaded as
in `Array.prototype.map`. -/
def taskOutcomes (env : Env) : List Nat → Nat → List (Except OrderTaskError SignedOrder)
  | [], _ => []
  | a :: rest, i => createAndSubmitOrder env a i :: taskOutcomes env rest (i + 1)

/-- `Promise.all` over settled outcomes: the joined promise is the list of
values when every task succeeded, and otherwise a single rejection carrying
the first failure. -/
def promiseAll : List (Except OrderTaskError SignedOrder) →
    Except OrderTaskError (List SignedOrder)
  | [] => .ok []
  | .error e :: _ => .error e
  | .ok a :: rest =>
    match promiseAll rest with
    | .ok as => .ok (a :: as)
    | .error e => .error e

/-- The whole awaited order-creation phase
`await Promise.all(wethOwnerAddresses.map(...))` at `src/index.ts:66-108`. -/
def ordersPhase (env : Env) (addrs : List Nat) : Except OrderTaskError (List SignedOrder) :=
  promiseAll (taskOutcomes env addrs 0)

theorem taskOutcomes_getElem (env : Env) :
    ∀ (addrs : List Nat) (i j : Nat),
      (taskOutcomes env addrs i)[j]? =
        (addrs[j]?).map (fun a => createAndSubmitOrder env a (i + j)) := by
  intro addrs
  induction addrs with
  | nil => intro i j; simp [taskOutcomes]
  | cons a rest ih =>
    intro i j
    cases j with
    | zero => simp [taskOutcomes]
    | succ j' =>
      simp only [taskOutcomes, List.getElem?_cons_succ]
      rw [ih (i + 1) j']
      have hidx : i + 1 + j' = i + (j' + 1) := by omega
      rw [hidx]

theorem promiseAll_first_error :
    ∀ (pre rest : List (Except OrderTaskError SignedOrder)) (e : OrderTaskError),
      (∀ x ∈ pre, x.isOk = true) → promiseAll (pre ++ .error e :: rest) = .error e := by
  intro pre
  induction pre with
  | nil => intro rest e _; rfl
  | cons x pre' ih =>
    intro rest e hok
    cases x with
    | error e' =>
      have := hok (.error e') (by simp)
      simp [Except.isOk, Except.toBool] at this
    | ok a =>
      simp only [List.cons_append, promiseAll]
      rw [List.append_eq, ih rest e (fun y hy => hok y (by simp [hy]))]

/-! ### Rounded-division monotonicity (for the rate comparator) -/

theorem divRound20_mono {x₁ y₁ x₂ y₂ : Nat} (hy₁ : 0 < y₁) (hy₂ : 0 < y₂)
    (h : x₁ * y₂ ≤ x₂ * y₁) : divRound20 x₁ y₁ ≤ divRound20 x₂ y₂ := by
  unfold divRound20
  rw [Nat.le_div_iff_mul_le (by omega : 0 < 2 * y₂)]
  have hfloor : (2 * x₁ * E20 + y₁) / (2 * y₁) * (2 * y₁) ≤ 2 * x₁ * E20 + y₁ :=
    Nat.div_mul_le_self _ _
  have hmul : (2 * x₁ * E20 + y₁) / (2 * y₁) * (2 * y₁) * y₂ ≤ (2 * x₁ * E20 + y₁) * y₂ :=
    Nat.mul_le_mul_right _ hfloor
  have hkey : (2 * x₁ * E20 + y₁) * y₂ ≤ (2 * x₂ * E20 + y₂) * y₁ := by
    have h20 : 2 * E20 * (x₁ * y₂) ≤ 2 * E20 * (x₂ * y₁) :=
      Nat.mul_le_mul_left _ h
    calc (2 * x₁ * E20 + y₁) * y₂ = 2 * E20 * (x₁ * y₂) + y₁ * y₂ := by ring
      _ ≤ 2 * E20 * (x₂ * y₁) + y₁ * y₂ := by omega
      _ = (2 * x₂ * E20 + y₂) * y₁ := by ring
  have : (2 * x₁ * E20 + y₁) / (2 * y₁) * (2 * y₂) * y₁ ≤ (2 * x₂ * E20 + y₂) * y₁ := by
    calc (2 * x₁ * E20 + y₁) / (2 * y₁) * (2 * y₂) * y₁
        = (2 * x₁ * E20 + y₁) / (2 * y₁) * (2 * y₁) * y₂ := by ring
      _ ≤ (2 * x₁ * E20 + y₁) * y₂ := hmul
      _ ≤ (2 * x₂ * E20 + y₂) * y₁ := hkey
  exact Nat.le_of_mul_le_mul_right this hy₁

theorem compareBids_neg_iff (a b : SignedOrder) :
    compareBids a b < 0 ↔ rate20 b < rate20 a := by
  unfold compareBids
  split_ifs with h1 h2 <;> simp <;> omega

theorem compareBids_pos_iff (a b : SignedOrder) :
    0 < compareBids a b ↔ rate20 a < rate20 b := by
  unfold compareBids
  split_ifs with h1 h2 <;> simp <;> omega

/-! ### Fixtures -/

/-- The ranked demo list of the spec's testable properties (3)-(5). -/
def demoRanked : List SignedOrder := [mkBid 600 10, mkBid 500 10, mkBid 450 10]

/-- The demo order book as fetched: bids in discovery order. -/
def demoOrderbook : OrderbookResponse :=
  { bids := [mkBid 500 10, mkBid 450 10, mkBid 600 10], asks := [] }

/-- A bid whose exact rate is `1 + 10^-21`, above `1`. -/
def bidX : SignedOrder := mkBid (10 ^ 21 + 1) (10 ^ 21)

/-- A bid whose exact rate is `1`. -/
def bidY : SignedOrder := mkBid (10 ^ 21) (10 ^ 21)

/-- A stale bid: positive amounts, expiration timestamp 0. -/
def staleBid : SignedOrder := mkBid 500 10

/-- A benign environment: every collaborator call succeeds. -/
def envDemo : Env where
  nowMs := 1700000000000
  wethAddress := 1
  zrxAddress := 2
  exchangeAddress := 3
  saltOf := fun i => i
  getFees := fun _ => Except.ok ⟨0, 0, 0⟩
  getOrderHashHex := fun _ => 0
  signOrderHash := fun _ _ => Except.ok ⟨0, 0, 0⟩
  submitOrder := fun _ => Except.ok ()

/-- An environment whose relayer rejects the fee request of maker `7` and
serves every other maker. -/
def envFail : Env where
  nowMs := 0
  wethAddress := 0
  zrxAddress := 0
  exchangeAddress := 0
  saltOf := fun _ => 0
  getFees := fun req =>
    if req.maker = 7 then Except.error OrderTaskError.FeeRequestFailure
    else Except.ok ⟨0, 0, 0⟩
  getOrderHashHex := fun _ => 0
  signOrderHash := fun _ _ => Except.ok ⟨0, 0, 0⟩
  submitOrder := fun _ => Except.ok ()

/-! ### Claims -/

/-- Claim C1, counterexample: the comparator of `src/index.ts:121-125` uses
`BigNumber` division rounded to 20 decimal places, not cross-multiplication;
`bidX` and `bidY` have different exact rates (cross-multiplication is
strict) yet compare equal, and ranking leaves the lower-rate `bidY` first,
so the comparison does not match the exact rational order. -/
theorem rate_comparison_rounding_counterexample :
    compareBids bidX bidY = 0 ∧
    bidY.makerTokenAmount * bidX.takerTokenAmount <
      bidX.makerTokenAmount * bidY.takerTokenAmount ∧
    rank [bidY, bidX] = [bidY, bidX] := by
  decide

/-- Claim C1, amended: the comparator divides with `BigNumber` decimal
division rounded to 20 decimal places (half-up) and compares the rounded
quotients; whenever it reports a strict inequality the result matches the
exact rational (cross-multiplication) order, but exact rates that agree to
20 decimal places compare equal. -/
theorem compareBids_strict_matches_exact :
    ∀ (a b : SignedOrder), 0 < a.takerTokenAmount → 0 < b.takerTokenAmount →
      ((compareBids a b < 0 →
          b.makerTokenAmount * a.takerTokenAmount <
            a.makerTokenAmount * b.takerTokenAmount) ∧
       (0 < compareBids a b →
          a.makerTokenAmount * b.takerTokenAmount <
            b.makerTokenAmount * a.takerTokenAmount)) := by
  intro a b ha hb
  constructor
  · intro h
    rw [compareBids_neg_iff] at h
    by_contra hc
    push_neg at hc
    exact absurd (divRound20_mono ha hb hc) (by unfold rate20 at h; omega)
  · intro h
    rw [compareBids_pos_iff] at h
    by_contra hc
    push_neg at hc
    exact absurd (divRound20_mono hb ha hc) (by unfold rate20 at h; omega)

/-- Witness for the amended C1 theorem at the entries `(600,10)` and
`(500,10)`. -/
theorem compareBids_strict_matches_exact_witness :
    (mkBid 500 10).makerTokenAmount * (mkBid 600 10).takerTokenAmount <
      (mkBid 600 10).makerTokenAmount * (mkBid 500 10).takerTokenAmount :=
  (compareBids_strict_matches_exact (mkBid 600 10) (mkBid 500 10)
    (by decide) (by decide)).1 (by decide)

/-- Claim C2, counterexample: the script applies no validation between
fetching and ranking (`src/index.ts:117-125`); a bid with expiration 0,
stale at any positive current timestamp, still appears in the output of the
sort. -/
theorem stale_entry_ranked_counterexample :
    staleBid.expirationUnixTimestampSec ≤ 1526000000 ∧
    0 < staleBid.makerTokenAmount ∧
    staleBid ∈ rank [mkBid 600 10, staleBid] := by
  decide

/-- Claim C2, amended: the code has no `validate` step; fetched bids go
straight to the sort, which only permutes, so every fetched entry —
including entries with non-positive amounts or expiration at or before the
current timestamp — appears in the output of `rank`. -/
theorem rank_drops_no_entry :
    ∀ (l : List SignedOrder) (e : SignedOrder), e ∈ l → e ∈ rank l :=
  fun _ _ h => (List.mem_insertionSort (r := bidLe)).mpr h

/-- Witness for the amended C2 theorem: the stale bid of the counterexample
list is kept by `rank`. -/
theorem rank_drops_no_entry_witness :
    staleBid ∈ rank [mkBid 600 10, staleBid] :=
  rank_drops_no_entry [mkBid 600 10, staleBid] staleBid (by decide)

/-- Claim C3: `planFill` walks the ranked sequence in order; when
`allowPartial` is true a success allocates exactly the target in total (the
crossing entry gets the remainder, later entries untouched), and when it is
false a success allocates at least the target (the crossing entry gets its
full amount, so the target is a floor); on the ranked list
`(600,10),(500,10),(450,10)` with target 15 the partial plan is
`10, 5` totalling 15 with the third entry untouched and the non-partial
plan is `10, 10` totalling 20. -/
theorem planFill_allocation_policy :
    (∀ (entries : List SignedOrder) (t : Int) (res : List FillAlloc),
        planFill entries t true = .ok res → sumAlloc res = t.toNat) ∧
    (∀ (entries : List SignedOrder) (t : Int) (res : List FillAlloc),
        planFill entries t false = .ok res → t.toNat ≤ sumAlloc res) ∧
    planFill demoRanked 15 true = .ok [⟨mkBid 600 10, 10⟩, ⟨mkBid 500 10, 5⟩] ∧
    planFill demoRanked 15 false = .ok [⟨mkBid 600 10, 10⟩, ⟨mkBid 500 10, 10⟩] ∧
    sumAlloc [⟨mkBid 600 10, 10⟩, ⟨mkBid 500 10, 5⟩] = 15 ∧
    sumAlloc [⟨mkBid 600 10, 10⟩, ⟨mkBid 500 10, 10⟩] = 20 := by
  refine ⟨?_, ?_, by decide, by decide, by decide, by decide⟩
  · intro entries t res h
    unfold planFill at h
    split at h
    · cases h
    · exact planFillGo_true_sum entries t.toNat res h
  · intro entries t res h
    unfold planFill at h
    split at h
    · cases h
    · exact planFillGo_false_sum entries t.toNat res h

/-- Witness for C3 at the demo list and target 15: the partial plan totals
exactly the target and the non-partial plan totals at least the target. -/
theorem planFill_allocation_policy_witness :
    sumAlloc [⟨mkBid 600 10, 10⟩, ⟨mkBid 500 10, 5⟩] = (15 : Int).toNat ∧
    (15 : Int).toNat ≤ sumAlloc [⟨mkBid 600 10, 10⟩, ⟨mkBid 500 10, 10⟩] :=
  ⟨planFill_allocation_policy.1 demoRanked 15
      [⟨mkBid 600 10, 10⟩, ⟨mkBid 500 10, 5⟩] (by decide),
   planFill_allocation_policy.2.1 demoRanked 15
      [⟨mkBid 600 10, 10⟩, ⟨mkBid 500 10, 10⟩] (by decide)⟩

/-- Claim C4: `planFill` fails with `InvalidTarget` on every non-positive
target, and with `InsufficientLiquidity` whenever the total available
taker quantity is strictly below a positive target; both failures produce
no fill. -/
theorem planFill_failure_policy :
    (∀ (entries : List SignedOrder) (t : Int) (ap : Bool),
        t ≤ 0 → planFill entries t ap = .error .InvalidTarget) ∧
    (∀ (entries : List SignedOrder) (t : Int) (ap : Bool),
        0 < t → totalAvail entries < t.toNat →
          planFill entries t ap = .error .InsufficientLiquidity) := by
  constructor
  · intro entries t ap ht
    unfold planFill
    rw [if_pos ht]
  · intro entries t ap ht hav
    unfold planFill
    rw [if_neg (by omega)]
    exact planFillGo_insufficient ap entries t.toNat (by omega) hav

/-- Witness for C4: target 0 is rejected as `InvalidTarget`, and target 100
against the demo list (30 available) is rejected as
`InsufficientLiquidity`. -/
theorem planFill_failure_policy_witness :
    planFill demoRanked 0 true = .error .InvalidTarget ∧
    planFill demoRanked 100 true = .error .InsufficientLiquidity :=
  ⟨planFill_failure_policy.1 demoRanked 0 true (by decide),
   planFill_failure_policy.2 demoRanked 100 true (by decide) (by decide)⟩

/-- Claim C5: on bids with `(makerAmount, takerAmount)` pairs `(500,10)`,
`(450,10)`, `(600,10)`, `rank` returns them in descending order of rate:
`(600,10)`, `(500,10)`, `(450,10)`. -/
theorem rank_demo_descending :
    rank [mkBid 500 10, mkBid 450 10, mkBid 600 10] =
      [mkBid 600 10, mkBid 500 10, mkBid 450 10] := by
  decide

/-- Claim C6, counterexample: with the relayer rejecting maker 7's fee
request, the sibling task of maker 8 still succeeds (submission included),
but the joined phase — `await Promise.all` — reports only the single
`FeeRequestFailure`: the sibling's outcome is not reported individually. -/
theorem promise_all_single_report_counterexample :
    (createAndSubmitOrder envFail 8 1).isOk = true ∧
    ordersPhase envFail [7, 8] = .error .FeeRequestFailure := by
  decide

/-- Claim C6, amended: a task's fee-request or signing failure does not
alter or roll back any sibling task — each task's outcome is a function of
its own address and index alone — but outcomes are not reported
individually: the tasks are joined with `Promise.all`, whose result on any
failure is the single first error, dropping every sibling outcome. -/
theorem order_tasks_isolated_single_report :
    (∀ (env : Env) (addrs : List Nat) (j : Nat),
        (taskOutcomes env addrs 0)[j]? =
          (addrs[j]?).map (fun a => createAndSubmitOrder env a j)) ∧
    (∀ (pre rest : List (Except OrderTaskError SignedOrder)) (e : OrderTaskError),
        (∀ x ∈ pre, x.isOk = true) →
          promiseAll (pre ++ .error e :: rest) = .error e) := by
  constructor
  · intro env addrs j
    simpa using taskOutcomes_getElem env addrs 0 j
  · exact promiseAll_first_error

/-- Witness for the amended C6 theorem: one successful outcome followed by a
failure joins to the bare failure. -/
theorem order_tasks_isolated_single_report_witness :
    promiseAll [Except.ok (mkBid 1 1), Except.error OrderTaskError.FeeRequestFailure] =
      Except.error OrderTaskError.FeeRequestFailure :=
  order_tasks_isolated_single_report.2 [Except.ok (mkBid 1 1)] []
    OrderTaskError.FeeRequestFailure (by decide)

/-- Claim C7: `rank` is stable — any equal-rate subsequence of the input
(every pair of its members ties under the comparator) survives in the same
relative order — and re-ranking an already-ranked list returns the identical
list.  Entries are assumed to have positive taker amounts, the domain on
which the comparator models `BigNumber` rate comparison. -/
theorem rank_stable_and_idempotent :
    ∀ (l : List SignedOrder), (∀ e ∈ l, 0 < e.takerTokenAmount) →
      ((∀ c : List SignedOrder, List.Sublist c l →
          (∀ a ∈ c, ∀ b ∈ c, rate20 a = rate20 b) → List.Sublist c (rank l)) ∧
       rank (rank l) = rank l) := by
  intro l _
  constructor
  · intro c hc htied
    exact List.sublist_insertionSort
      (List.pairwise_of_forall_mem_list
        (fun a ha b hb => (bidLe_iff a b).2 (le_of_eq (htied b hb a ha))))
      hc
  · exact List.Sorted.insertionSort_eq (List.sorted_insertionSort bidLe l)

/-- Witness for C7 on the tied list `(500,10), (50,1)`: the whole list
(all rates equal) keeps its order, and re-ranking is the identity. -/
theorem rank_stable_and_idempotent_witness :
    List.Sublist [mkBid 500 10, mkBid 50 1] (rank [mkBid 500 10, mkBid 50 1]) ∧
    rank (rank [mkBid 500 10, mkBid 50 1]) = rank [mkBid 500 10, mkBid 50 1] :=
  have h := rank_stable_and_idempotent [mkBid 500 10, mkBid 50 1] (by decide)
  ⟨h.1 [mkBid 500 10, mkBid 50 1] (List.Sublist.refl _) (by decide), h.2⟩

/-- Claim C8: merging a fee response into a fee request (the spread
`{ ...feesRequest, ...feesResponse }`) changes only the fee fields; every
economic field of the skeleton is unchanged in the merged order. -/
theorem mkOrder_frame :
    ∀ (req : FeesRequest) (resp : FeesResponse),
      (mkOrder req resp).exchangeContractAddress = req.exchangeContractAddress ∧
      (mkOrder req resp).maker = req.maker ∧
      (mkOrder req resp).taker = req.taker ∧
      (mkOrder req resp).makerTokenAddress = req.makerTokenAddress ∧
      (mkOrder req resp).takerTokenAddress = req.takerTokenAddress ∧
      (mkOrder req resp).makerTokenAmount = req.makerTokenAmount ∧
      (mkOrder req resp).takerTokenAmount = req.takerTokenAmount ∧
      (mkOrder req resp).expirationUnixTimestampSec = req.expirationUnixTimestampSec ∧
      (mkOrder req resp).salt = req.salt ∧
      (mkOrder req resp).makerFee = resp.makerFee ∧
      (mkOrder req resp).takerFee = resp.takerFee ∧
      (mkOrder req resp).feeRecipient = resp.feeRecipient :=
  fun _ _ => ⟨rfl, rfl, rfl, rfl, rfl, rfl, rfl, rfl, rfl, rfl, rfl, rfl⟩

/-- Claim C9: ranking is an in-place sort of the fetched bids —
`bestOrders` is the very sequence stored back in the response's `bids`
field, which now holds `rank` of the fetched bids (asks untouched) — and on
the demo order book the response no longer holds the discovery order
anywhere. -/
theorem rank_in_place_aliasing :
    (∀ (resp : OrderbookResponse),
        (getBestOrders resp).2 = (getBestOrders resp).1.bids ∧
        (getBestOrders resp).1.bids = rank resp.bids ∧
        (getBestOrders resp).1.asks = resp.asks) ∧
    (getBestOrders demoOrderbook).1.bids ≠ demoOrderbook.bids :=
  ⟨fun _ => ⟨rfl, rfl, rfl⟩, by decide⟩

/-- Claim C10: every constructed fees request carries
`expirationUnixTimestampSec = Date.now() + 3600000` — milliseconds in a
seconds-denominated field — so the stored value strictly exceeds the
creation time in seconds, is at least 999 times it, and for any realistic
clock (at or after the year 2001 in milliseconds) lies more than `10^9`
seconds past creation, beyond any realistic run. -/
theorem expiration_milliseconds_in_seconds_field :
    ∀ (env : Env) (address idx : Nat),
      (mkFeesRequest env address idx).expirationUnixTimestampSec = env.nowMs + 3600000 ∧
      env.nowMs / 1000 < (mkFeesRequest env address idx).expirationUnixTimestampSec ∧
      999 * (env.nowMs / 1000) ≤ (mkFeesRequest env address idx).expirationUnixTimestampSec ∧
      (10 ^ 12 ≤ env.nowMs →
        env.nowMs / 1000 + 10 ^ 9 < (mkFeesRequest env address idx).expirationUnixTimestampSec) := by
  intro env address idx
  have hval : (mkFeesRequest env address idx).expirationUnixTimestampSec =
      env.nowMs + 3600000 := rfl
  refine ⟨hval, ?_, ?_, ?_⟩ <;> rw [hval] <;> omega

/-- Witness for C10 at a November 2023 clock: the stored expiration is more
than `10^9` seconds past the creation time in seconds. -/
theorem expiration_milliseconds_in_seconds_field_witness :
    envDemo.nowMs / 1000 + 10 ^ 9 <
      (mkFeesRequest envDemo 5 0).expirationUnixTimestampSec :=
  (expiration_milliseconds_in_seconds_field envDemo 5 0).2.2.2 (by decide)

end Connect
